import Mathlib

/-!
Verification of the record-comparison and evaluation-aggregation engine of the
cataloger repository.

Strings are embedded as `List Char` (the repository only ever feeds ASCII
bibliographic text through these paths, where Go's byte-wise `len`/indexing
coincides with character-wise operations).  Go `float64` scores are embedded
as `ℚ`: every score produced by the code is a rational arising from small
integer arithmetic, and the spec states all thresholds and formulas as exact
rationals.

Sources embedded:
  - internal/eval/metrics/marc_compare.go   (five-field comparator,
    full MARC record comparator, similarity and Levenshtein distance)
  - internal/eval/metrics/aggregate.go      (aggregation of evaluation runs)
  - internal/evaluation/comparison.go       (weighted record comparator)
  - the metadata comparator (package metadata, CompareMetadata/compareField)
-/

namespace Cataloger

/-- Strings modelled as lists of characters. -/
abbrev Str := List Char

/-- Go regexp word character class `\w` = `[0-9A-Za-z_]` (ASCII). -/
def goWordChar (c : Char) : Bool := c.isAlpha || c.isDigit || c = '_'

/-- Go regexp whitespace class `\s` = `[\t\n\f\r ]`.  After the `[^\w\s]`
strip this is also exactly the set of characters `strings.Fields` and
`strings.TrimSpace` treat as white space on the remaining alphabet. -/
def goSpaceChar (c : Char) : Bool :=
  c = ' ' || c = '\t' || c = '\n' || c = '\x0c' || c = '\r'

/-- `strings.ToLower` (ASCII case folding). -/
def toLowerStr (s : Str) : Str := s.map Char.toLower

/-- Accumulator version of `strings.Fields`: splits on white space,
dropping empty pieces.  `acc` holds the current word reversed. -/
def fieldsAux : Str → Str → List Str
  | [], acc => if acc = [] then [] else [acc.reverse]
  | c :: cs, acc =>
    if goSpaceChar c then
      if acc = [] then fieldsAux cs [] else acc.reverse :: fieldsAux cs []
    else fieldsAux cs (c :: acc)

/-- `strings.Fields`. -/
def splitFields (s : Str) : List Str := fieldsAux s []

/-- `strings.Join(ws, " ")`. -/
def joinSpace (ws : List Str) : Str := List.intercalate [' '] ws

/-- `strings.TrimSpace`. -/
def trimSpace (s : Str) : Str :=
  ((s.dropWhile goSpaceChar).reverse.dropWhile goSpaceChar).reverse

/-- `normalizeForComparison` from marc_compare.go: lower-case, delete every
`[^\w\s]` character, collapse white space runs (`Fields` + `Join " "`),
and trim. -/
def normalizeForComparison (text : Str) : Str :=
  trimSpace (joinSpace (splitFields ((toLowerStr text).filter
    (fun c => goWordChar c || goSpaceChar c))))

/-- `normalizeText` from the metadata comparator: same pieces but applied in
its order — lower-case, collapse white space, then delete `[^\w\s]`, then
trim (so a deleted punctuation mark can leave a double space behind). -/
def normalizeText (text : Str) : Str :=
  trimSpace ((joinSpace (splitFields (toLowerStr text))).filter
    (fun c => goWordChar c || goSpaceChar c))

/-- The dynamic-programming matrix of `levenshteinDistance` (marc_compare.go
and comparison.go share the same loop): `levMatrixF fuel s1 s2 i j` is
`matrix[i][j]`, the edit distance between the first `i` bytes of `s1` and the
first `j` bytes of `s2`.  The `fuel` argument only drives the recursion and
never runs out when `i + j ≤ fuel` (`levMatrixF_spec`). -/
def levMatrixF (s1 s2 : Str) : Nat → Nat → Nat → Nat
  | _, 0, j => j
  | _, i + 1, 0 => i + 1
  | 0, _ + 1, _ + 1 => 0
  | fuel + 1, i + 1, j + 1 =>
    let cost : Nat := if s1.getD i ' ' = s2.getD j ' ' then 0 else 1
    min (levMatrixF s1 s2 fuel i (j + 1) + 1)
      (min (levMatrixF s1 s2 fuel (i + 1) j + 1)
        (levMatrixF s1 s2 fuel i j + cost))

/-- `levenshteinDistance` from marc_compare.go (and, identically, from the
metadata comparator): early returns for equal and empty inputs, then the
full dynamic program. -/
def levenshteinDistance (s1 s2 : Str) : Nat :=
  if s1 = s2 then 0
  else if s1 = [] then s2.length
  else if s2 = [] then s1.length
  else levMatrixF s1 s2 (s1.length + s2.length) s1.length s2.length

/-- `levenshteinDistance` from comparison.go: same dynamic program but
without the equal-strings early return. -/
def levenshteinDistanceEval (s1 s2 : Str) : Nat :=
  if s1 = [] then s2.length
  else if s2 = [] then s1.length
  else levMatrixF s1 s2 (s1.length + s2.length) s1.length s2.length

/-- The classic unit-cost Levenshtein distance, taken from Mathlib as the
specification-side reference: insertion, deletion and substitution each
cost 1. -/
def levRef (s1 s2 : Str) : Nat := levenshtein Levenshtein.defaultCost s1 s2

/-- `calculateSimilarity` from marc_compare.go. -/
def calculateSimilarity (s1 s2 : Str) : ℚ :=
  if s1 = s2 then 1
  else if s1.length = 0 ∨ s2.length = 0 then 0
  else 1 - (levenshteinDistance s1 s2 : ℚ) / (max s1.length s2.length : ℚ)

/-- The similarity formula as the spec states it (§4.3):
`1 − distance / max(len(a), len(b))` with the classic unit-cost
Levenshtein distance. -/
def similaritySpec (a b : Str) : ℚ :=
  1 - (levRef a b : ℚ) / (max a.length b.length : ℚ)

/-- `stringSimilarity` from comparison.go: trims and lower-cases both
inputs, then converts the edit distance to a ratio. -/
def stringSimilarity (s1 s2 : Str) : ℚ :=
  let t1 := toLowerStr (trimSpace s1)
  let t2 := toLowerStr (trimSpace s2)
  if t1 = t2 then 1
  else
    let maxLen : ℚ := max t1.length t2.length
    if maxLen = 0 then 1
    else 1 - (levenshteinDistanceEval t1 t2 : ℚ) / maxLen

/-- `FieldMatch` from marc_compare.go (the free-text `Notes` field, which
only restates `Method` with the printed score, is not modelled). -/
structure FieldMatch where
  expected : Str
  actual : Str
  score : ℚ
  method : String
deriving DecidableEq, Repr

/-- `compareField` from marc_compare.go: the five-field comparator's
per-field comparison (empty checks on the raw values, exact and substring
checks on the normalized values, then similarity with the 0.7/0.4 bands).
`strings.Contains(a, b)` is `b <:+: a`. -/
def compareField (expected actual : Str) (_fieldName : String) : FieldMatch :=
  let expNorm := normalizeForComparison expected
  let actNorm := normalizeForComparison actual
  if expected = [] ∧ actual = [] then
    ⟨expected, actual, 1/2, "both_missing"⟩
  else if expected = [] then
    ⟨expected, actual, 0, "expected_missing"⟩
  else if actual = [] then
    ⟨expected, actual, 0, "actual_missing"⟩
  else if expNorm = actNorm then
    ⟨expected, actual, 1, "exact"⟩
  else if expNorm <:+: actNorm ∨ actNorm <:+: expNorm then
    ⟨expected, actual, 4/5, "substring"⟩
  else
    let similarity := calculateSimilarity expNorm actNorm
    ⟨expected, actual, similarity,
      if similarity > 7/10 then "fuzzy_high"
      else if similarity > 2/5 then "fuzzy_medium"
      else "no_match"⟩

/-- `MARCComparison` from marc_compare.go. -/
structure MARCComparison where
  titleMatch : FieldMatch
  authorMatch : FieldMatch
  dateMatch : FieldMatch
  isbnMatch : FieldMatch
  subjectMatch : FieldMatch
  fieldLevelScores : List (String × ℚ)
  overallScore : ℚ
deriving DecidableEq, Repr

/-- The comparison-and-scoring part of `CompareMARCFields` (marc_compare.go),
taking the five extracted (expected, actual) value pairs; the regex
extraction of the actual values from the raw MARC text is the parsing
front end, not part of the scoring.  The weighted total is written as the
explicit sum of the five fixed weights (Go folds the same products in map
order; rational addition is order-independent). -/
def compareMARCFieldsCore (expTitle actTitle expAuthor actAuthor expDate
    actDate expISBN actISBN expSubject actSubject : Str) : MARCComparison :=
  let t := compareField expTitle actTitle "title"
  let a := compareField expAuthor actAuthor "author"
  let d := compareField expDate actDate "date"
  let i := compareField expISBN actISBN "isbn"
  let s := compareField expSubject actSubject "subject"
  { titleMatch := t, authorMatch := a, dateMatch := d, isbnMatch := i,
    subjectMatch := s,
    fieldLevelScores := [("title", t.score), ("author", a.score),
      ("date", d.score), ("isbn", i.score), ("subject", s.score)],
    overallScore := t.score * (3/10) + a.score * (3/10) + d.score * (1/5)
      + i.score * (1/10) + s.score * (1/10) }

/-- The per-tag comparison performed by `CompareMARCRecords`
(marc_compare.go) when the tag exists on both sides: normalize, always
compute the Levenshtein distance, then classify with the 0.8/0.5 bands.
Returns the match together with the distance added to `LevenshteinTotal`. -/
def marcCompareTag (refValue genValue : Str) : FieldMatch × Nat :=
  let refNorm := normalizeForComparison refValue
  let genNorm := normalizeForComparison genValue
  let distance := levenshteinDistance refNorm genNorm
  if refNorm = genNorm then
    (⟨refValue, genValue, 1, "exact"⟩, distance)
  else
    let similarity := calculateSimilarity refNorm genNorm
    (⟨refValue, genValue, similarity,
      if similarity > 4/5 then "fuzzy_high"
      else if similarity > 1/2 then "fuzzy_medium"
      else "no_match"⟩, distance)

/-- `FullMARCComparison` from marc_compare.go (the `Fields` map is kept as
an association list in processing order; the raw record copies are the
inputs themselves). -/
structure FullMARCComparison where
  fields : List (String × FieldMatch)
  overallScore : ℚ
  fieldsMatched : Nat
  fieldsMissing : Nat
  fieldsIncorrect : Nat
  levenshteinTotal : Nat
deriving DecidableEq, Repr

/-- Running state of the `CompareMARCRecords` loops. -/
structure MarcCmpState where
  fields : List (String × FieldMatch)
  totalScore : ℚ
  fieldCount : Nat
  totalLev : Nat
  matched : Nat
  missing : Nat
  incorrect : Nat
deriving DecidableEq, Repr

/-- One iteration of the reference-side loop of `CompareMARCRecords`.  The
`FieldsMatched`/`FieldsIncorrect` counters are bumped from the method of the
produced match — exactly the branches in which Go increments them
(`exact`/`fuzzy_high` matched, `fuzzy_medium`/`no_match` incorrect). -/
def marcRefStep (genFields : List (String × Str)) (st : MarcCmpState)
    (p : String × Str) : MarcCmpState :=
  match genFields.lookup p.1 with
  | none =>
    { st with
      fields := st.fields ++ [(p.1, ⟨p.2, [], 0, "missing"⟩)]
      fieldCount := st.fieldCount + 1
      missing := st.missing + 1 }
  | some genValue =>
    let md := marcCompareTag p.2 genValue
    { st with
      fields := st.fields ++ [(p.1, md.1)]
      totalScore := st.totalScore + md.1.score
      fieldCount := st.fieldCount + 1
      totalLev := st.totalLev + md.2
      matched := st.matched +
        (if md.1.method = "exact" ∨ md.1.method = "fuzzy_high" then 1 else 0)
      incorrect := st.incorrect +
        (if md.1.method = "fuzzy_medium" ∨ md.1.method = "no_match" then 1
         else 0) }

/-- One iteration of the extra-fields loop of `CompareMARCRecords`: a tag
present only on the generated side is recorded with score 0 and method
`extra`, and bumps the field count. -/
def marcExtraStep (refFields : List (String × Str)) (st : MarcCmpState)
    (p : String × Str) : MarcCmpState :=
  if refFields.lookup p.1 = none then
    { st with
      fields := st.fields ++ [(p.1, ⟨[], p.2, 0, "extra"⟩)]
      fieldCount := st.fieldCount + 1 }
  else st

/-- The comparison core of `CompareMARCRecords` (marc_compare.go), taking the
two records already parsed into tag → value maps (association lists).  The Go
`map` iteration order is unspecified; all aggregate outputs (score sum, field
count, counters, Levenshtein total) are order-independent, and the `Fields`
map is order-blind, so list order stands in for it. -/
def compareMARCRecordsCore (refFields genFields : List (String × Str)) :
    FullMARCComparison :=
  let st1 := refFields.foldl (marcRefStep genFields) ⟨[], 0, 0, 0, 0, 0, 0⟩
  let st2 := genFields.foldl (marcExtraStep refFields) st1
  { fields := st2.fields,
    overallScore :=
      if st2.fieldCount > 0 then st2.totalScore / (st2.fieldCount : ℚ) else 0,
    fieldsMatched := st2.matched,
    fieldsMissing := st2.missing,
    fieldsIncorrect := st2.incorrect,
    levenshteinTotal := st2.totalLev }

/-- `FieldComparison` from the metadata comparator. -/
structure FieldComparison where
  fieldName : String
  expected : Str
  actual : Str
  score : ℚ
  distance : Nat
  matchLabel : String
deriving DecidableEq, Repr

/-- `compareField` from the metadata comparator (package metadata): empty
checks on the *normalized* values, Levenshtein distance computed before the
exact check, no substring rule, and 0.9/0.7/0.5 classification bands. -/
def metadataCompareField (fieldName : String) (expected actual : Str) :
    FieldComparison :=
  let expNorm := normalizeText expected
  let actNorm := normalizeText actual
  if expNorm = [] ∧ actNorm = [] then
    ⟨fieldName, expected, actual, 1/2, 0, "both_empty"⟩
  else if expNorm = [] then
    ⟨fieldName, expected, actual, 0, actNorm.length, "no_reference"⟩
  else if actNorm = [] then
    ⟨fieldName, expected, actual, 0, expNorm.length, "missing"⟩
  else
    let distance := levenshteinDistance expNorm actNorm
    if expNorm = actNorm then
      ⟨fieldName, expected, actual, 1, distance, "exact"⟩
    else
      let maxLen := max expNorm.length actNorm.length
      let similarity : ℚ := 1 - (distance : ℚ) / (maxLen : ℚ)
      ⟨fieldName, expected, actual, similarity, distance,
        if similarity > 9/10 then "fuzzy_high"
        else if similarity > 7/10 then "fuzzy_medium"
        else if similarity > 1/2 then "fuzzy_low"
        else "no_match"⟩

/-- `FieldDiff` from comparison.go. -/
structure FieldDiff where
  tag : String
  reference : Str
  generated : Str
  similarity : ℚ
deriving DecidableEq, Repr

/-- `ComparisonResult` from comparison.go (`FieldScores` kept as an
association list in configuration order). -/
structure ComparisonResult where
  overallScore : ℚ
  fieldScores : List (String × ℚ)
  missingFields : List String
  extraFields : List String
  fieldDifferences : List FieldDiff
deriving DecidableEq, Repr

/-- Running state of the weighted loop of `CompareRecords`. -/
structure CRState where
  totalWeight : ℚ
  weightedScore : ℚ
  fieldScores : List (String × ℚ)
  missingFields : List String
  extraFields : List String
  fieldDifferences : List FieldDiff
deriving DecidableEq, Repr

/-- All field contents grouped under a tag (`groupFieldsByTag` lookup); a
field is modelled as its tag together with its `fieldToString` content. -/
def valuesOf (tag : String) (fields : List (String × Str)) : List Str :=
  (fields.filter (fun p => p.1 = tag)).map (fun p => p.2)

/-- One iteration of the weighted loop of `CompareRecords` (comparison.go)
for a configured `FieldWeight` entry `fw`: both sides missing scores 1.0,
candidate-only scores 0.5 into the extra list, reference-only scores 0.0
into the missing list, otherwise the first occurrences on each side are
compared with `stringSimilarity` and a `FieldDiff` is recorded
(`compareFieldContent`). -/
def crStep (refFields genFields : List (String × Str)) (st : CRState)
    (fw : String × ℚ) : CRState :=
  let st := { st with totalWeight := st.totalWeight + fw.2 }
  let refData := valuesOf fw.1 refFields
  let genData := valuesOf fw.1 genFields
  if refData = [] ∧ genData = [] then
    { st with
      weightedScore := st.weightedScore + fw.2
      fieldScores := st.fieldScores ++ [(fw.1, 1)] }
  else if refData = [] then
    { st with
      extraFields := st.extraFields ++ [fw.1]
      fieldScores := st.fieldScores ++ [(fw.1, 1/2)]
      weightedScore := st.weightedScore + fw.2 * (1/2) }
  else if genData = [] then
    { st with
      missingFields := st.missingFields ++ [fw.1]
      fieldScores := st.fieldScores ++ [(fw.1, 0)] }
  else
    let refContent := refData.headD []
    let genContent := genData.headD []
    let score := stringSimilarity refContent genContent
    { st with
      fieldDifferences :=
        st.fieldDifferences ++ [⟨fw.1, refContent, genContent, score⟩]
      fieldScores := st.fieldScores ++ [(fw.1, score)]
      weightedScore := st.weightedScore + fw.2 * score }

/-- The weighted comparison of `CompareRecords` (comparison.go) over an
arbitrary weight table (the Go loop body depends only on the current
`FieldWeight` entry, so the hard-wired table is passed as an argument);
the two records are given already parsed into (tag, content) lists. -/
def compareRecordsCoreW (weights : List (String × ℚ))
    (refFields genFields : List (String × Str)) : ComparisonResult :=
  let st := weights.foldl (crStep refFields genFields) ⟨0, 0, [], [], [], []⟩
  { overallScore :=
      if st.totalWeight > 0 then st.weightedScore / st.totalWeight else 0
    fieldScores := st.fieldScores
    missingFields := st.missingFields
    extraFields := st.extraFields
    fieldDifferences := st.fieldDifferences }

/-- `DefaultFieldWeights` from comparison.go. -/
def DefaultFieldWeights : List (String × ℚ) :=
  [("020", 1/20), ("100", 3/20), ("110", 3/20), ("245", 1/4), ("250", 1/20),
   ("260", 3/20), ("264", 3/20), ("300", 1/20), ("650", 1/10), ("700", 1/20)]

/-- `CompareRecords` (comparison.go) after parsing: always uses the
hard-wired `DefaultFieldWeights` table. -/
def compareRecordsCore (refFields genFields : List (String × Str)) :
    ComparisonResult :=
  compareRecordsCoreW DefaultFieldWeights refFields genFields

/-- Sum of the weights of a configuration. -/
def weightTotal (weights : List (String × ℚ)) : ℚ :=
  (weights.map (fun p => p.2)).sum

/-- `EvaluationResult` from aggregate.go.  `ProcessingTime` is a
`time.Duration` (integer nanoseconds), modelled as `Nat`. -/
structure EvaluationResult where
  barcode : String
  title : String
  author : String
  generatedMARC : String
  comparison : Option MARCComparison
  processingTime : Nat
  error : String
deriving DecidableEq, Repr

/-- `FieldStats` from aggregate.go. -/
structure FieldStats where
  exactMatches : Nat
  fuzzyMatches : Nat
  noMatches : Nat
  missingFields : Nat
  averageScore : ℚ
  scores : List ℚ
deriving DecidableEq, Repr

/-- The zero-initialized `FieldStats`. -/
def initFieldStats : FieldStats := ⟨0, 0, 0, 0, 0, []⟩

/-- `aggregateFieldStats` from aggregate.go: append the score and bump the
histogram bucket selected by the Go `switch` on `match.Method`. -/
def aggregateFieldStats (stats : FieldStats) (m : FieldMatch) : FieldStats :=
  { stats with
    scores := stats.scores ++ [m.score]
    exactMatches := stats.exactMatches + (if m.method = "exact" then 1 else 0)
    fuzzyMatches := stats.fuzzyMatches +
      (if m.method = "fuzzy_high" ∨ m.method = "fuzzy_medium"
          ∨ m.method = "substring" then 1 else 0)
    noMatches := stats.noMatches + (if m.method = "no_match" then 1 else 0)
    missingFields := stats.missingFields +
      (if m.method = "actual_missing" ∨ m.method = "expected_missing"
          ∨ m.method = "both_missing" then 1 else 0) }

/-- `calculateAverage` from aggregate.go. -/
def calculateAverage (scores : List ℚ) : ℚ :=
  if scores.length = 0 then 0 else scores.sum / (scores.length : ℚ)

/-- `AggregateResults` from aggregate.go.  `EvaluationDate` (a wall-clock
reading) is modelled as a `Nat` supplied by the caller. -/
structure AggregateResults where
  totalRecords : Nat
  successCount : Nat
  failureCount : Nat
  titleAccuracy : FieldStats
  authorAccuracy : FieldStats
  dateAccuracy : FieldStats
  isbnAccuracy : FieldStats
  subjectAccuracy : FieldStats
  overallAccuracy : ℚ
  averageProcessingTime : Nat
  totalProcessingTime : Nat
  results : List EvaluationResult
  evaluationDate : Nat
  provider : String
  model : String
  sampleSize : Nat
deriving DecidableEq, Repr

/-- Running state of the result loop in `AggregateEvaluationResults`. -/
structure AggState where
  successCount : Nat
  failureCount : Nat
  titleStats : FieldStats
  authorStats : FieldStats
  dateStats : FieldStats
  isbnStats : FieldStats
  subjectStats : FieldStats
  totalOverallScore : ℚ
  totalDuration : Nat
  successDuration : Nat
deriving DecidableEq, Repr

/-- One iteration of the result loop of `AggregateEvaluationResults`
(aggregate.go): total time always accumulates; a non-empty `Error` counts
as a failure and contributes nothing else; a success with a `nil`
comparison contributes only to the success count and duration. -/
def aggStep (st : AggState) (r : EvaluationResult) : AggState :=
  let st := { st with totalDuration := st.totalDuration + r.processingTime }
  if r.error ≠ "" then
    { st with failureCount := st.failureCount + 1 }
  else
    let st := { st with
      successCount := st.successCount + 1
      successDuration := st.successDuration + r.processingTime }
    match r.comparison with
    | none => st
    | some c =>
      { st with
        titleStats := aggregateFieldStats st.titleStats c.titleMatch
        authorStats := aggregateFieldStats st.authorStats c.authorMatch
        dateStats := aggregateFieldStats st.dateStats c.dateMatch
        isbnStats := aggregateFieldStats st.isbnStats c.isbnMatch
        subjectStats := aggregateFieldStats st.subjectStats c.subjectMatch
        totalOverallScore := st.totalOverallScore + c.overallScore }

/-- The initial `AggState`. -/
def initAggState : AggState :=
  ⟨0, 0, initFieldStats, initFieldStats, initFieldStats, initFieldStats,
   initFieldStats, 0, 0, 0⟩

/-- Attach the final average to a `FieldStats` (the body of the
`SuccessCount > 0` block of `AggregateEvaluationResults`). -/
def finishStats (stats : FieldStats) : FieldStats :=
  { stats with averageScore := calculateAverage stats.scores }

/-- `AggregateEvaluationResults` from aggregate.go.  `now` stands for the
`time.Now()` reading stored in `EvaluationDate`.  Averages are only
computed when at least one record succeeded; `AverageProcessingTime` is the
Go integer `Duration` division. -/
def AggregateEvaluationResults (results : List EvaluationResult)
    (provider model : String) (now : Nat) : AggregateResults :=
  let st := results.foldl aggStep initAggState
  { totalRecords := results.length
    successCount := st.successCount
    failureCount := st.failureCount
    titleAccuracy :=
      if st.successCount > 0 then finishStats st.titleStats else st.titleStats
    authorAccuracy :=
      if st.successCount > 0 then finishStats st.authorStats else st.authorStats
    dateAccuracy :=
      if st.successCount > 0 then finishStats st.dateStats else st.dateStats
    isbnAccuracy :=
      if st.successCount > 0 then finishStats st.isbnStats else st.isbnStats
    subjectAccuracy :=
      if st.successCount > 0 then finishStats st.subjectStats
      else st.subjectStats
    overallAccuracy :=
      if st.successCount > 0 then st.totalOverallScore / (st.successCount : ℚ)
      else 0
    averageProcessingTime :=
      if st.successCount > 0 then st.successDuration / st.successCount else 0
    totalProcessingTime := st.totalDuration
    results := results
    evaluationDate := now
    provider := provider
    model := model
    sampleSize := results.length }

/-- The scores a selector contributes to its `FieldStats.Scores` list: one
entry per successful result that carries a comparison. -/
def fieldScoresOf (sel : MARCComparison → FieldMatch)
    (results : List EvaluationResult) : List ℚ :=
  results.filterMap (fun r =>
    if r.error = "" then r.comparison.map (fun c => (sel c).score) else none)

/-- The overall scores entering the overall-accuracy numerator: one entry
per successful result that carries a comparison. -/
def overallScoresOf (results : List EvaluationResult) : List ℚ :=
  results.filterMap (fun r =>
    if r.error = "" then r.comparison.map (fun c => c.overallScore) else none)

/-- Score that a reference-side tag contributes in `CompareMARCRecords`:
0 when the tag is missing from the generated record, otherwise the per-tag
comparison score. -/
def refPairScore (genFields : List (String × Str)) (p : String × Str) : ℚ :=
  match genFields.lookup p.1 with
  | none => 0
  | some genValue => (marcCompareTag p.2 genValue).1.score

/-- Number of generated-side tags absent from the reference record. -/
def extraCount (refFields genFields : List (String × Str)) : Nat :=
  (genFields.filter (fun p => decide (refFields.lookup p.1 = none))).length

/-- A zero-scored comparison: every field missing, overall score 0. -/
def zeroComparison : MARCComparison :=
  ⟨⟨[], [], 0, "no_match"⟩, ⟨[], [], 0, "no_match"⟩, ⟨[], [], 0, "no_match"⟩,
   ⟨[], [], 0, "no_match"⟩, ⟨[], [], 0, "no_match"⟩, [], 0⟩

/-- Replace a successful result that carries no comparison by the same
result carrying an explicit zero-scored comparison. -/
def fillZeroComparison (r : EvaluationResult) : EvaluationResult :=
  if r.error = "" ∧ r.comparison = none then
    { r with comparison := some zeroComparison }
  else r

/-
Theorems.  First the Levenshtein theory: the iterative dynamic program of
the Go sources computes the textbook unit-cost edit distance (Mathlib's
`levenshtein` with `Levenshtein.defaultCost`).
-/

theorem levRef_nil_left (ys : Str) : levRef [] ys = ys.length := by
  induction ys with
  | nil => simp [levRef]
  | cons y ys ih =>
    simp only [levRef, levenshtein_nil_cons, Levenshtein.defaultCost_insert,
      List.length_cons] at *
    omega

theorem levRef_nil_right (xs : Str) : levRef xs [] = xs.length := by
  induction xs with
  | nil => simp [levRef]
  | cons x xs ih =>
    simp only [levRef, levenshtein_cons_nil, Levenshtein.defaultCost_delete,
      List.length_cons] at *
    omega

theorem levRef_cons_cons (x y : Char) (xs ys : Str) :
    levRef (x :: xs) (y :: ys) =
      min (levRef xs (y :: ys) + 1)
        (min (levRef (x :: xs) ys + 1)
          (levRef xs ys + if x = y then 0 else 1)) := by
  simp only [levRef, levenshtein_cons_cons, Levenshtein.defaultCost_delete,
    Levenshtein.defaultCost_insert, Levenshtein.defaultCost_substitute]
  split_ifs <;> omega

theorem levRef_self (xs : Str) : levRef xs xs = 0 := by
  induction xs with
  | nil => simp [levRef]
  | cons x xs ih => rw [levRef_cons_cons]; simp [ih]

theorem levRef_le_max (xs ys : Str) :
    levRef xs ys ≤ max xs.length ys.length := by
  induction xs generalizing ys with
  | nil => rw [levRef_nil_left]; omega
  | cons x xs ih =>
    cases ys with
    | nil => rw [levRef_nil_right]; simp
    | cons y ys =>
      rw [levRef_cons_cons]
      have h := ih ys
      simp only [List.length_cons]
      split_ifs <;> omega

set_option maxHeartbeats 2000000 in
theorem levRef_snoc (a b : Char) (xs ys : Str) :
    levRef (xs ++ [a]) (ys ++ [b]) =
      min (levRef xs (ys ++ [b]) + 1)
        (min (levRef (xs ++ [a]) ys + 1)
          (levRef xs ys + if a = b then 0 else 1)) := by
  have key : ∀ n (xs ys : Str), xs.length + ys.length ≤ n →
      levRef (xs ++ [a]) (ys ++ [b]) =
        min (levRef xs (ys ++ [b]) + 1)
          (min (levRef (xs ++ [a]) ys + 1)
            (levRef xs ys + if a = b then 0 else 1)) := by
    intro n
    induction n with
    | zero =>
      intro xs ys h
      have hxs : xs = [] := by
        cases xs <;> simp_all
      have hys : ys = [] := by
        cases ys <;> simp_all
      subst hxs; subst hys
      simpa using levRef_cons_cons a b [] []
    | succ n ih =>
      intro xs ys h
      match xs, ys with
      | [], [] => simpa using levRef_cons_cons a b [] []
      | [], y :: ys =>
        have h1 := ih [] ys (by simp at h ⊢; omega)
        simp only [List.nil_append, List.cons_append] at h1 ⊢
        rw [levRef_cons_cons a y, levRef_cons_cons a y, h1]
        rw [levRef_nil_left, levRef_nil_left, levRef_nil_left,
          levRef_nil_left]
        simp only [List.length_cons, List.length_append, List.length_nil]
        simp only [← min_add_add_right]
        simp only [Nat.zero_add, Nat.add_zero, Nat.add_assoc, Nat.add_comm,
          Nat.add_left_comm]
        simp only [min_assoc]
        simp only [min_comm, min_left_comm]
      | x :: xs, [] =>
        have h1 := ih xs [] (by simp at h ⊢; omega)
        simp only [List.nil_append, List.cons_append] at h1 ⊢
        rw [levRef_cons_cons x b, levRef_cons_cons x b, h1]
        rw [levRef_nil_right, levRef_nil_right, levRef_nil_right,
          levRef_nil_right]
        simp only [List.length_cons, List.length_append, List.length_nil]
        simp only [← min_add_add_right]
        simp only [Nat.zero_add, Nat.add_zero, Nat.add_assoc, Nat.add_comm,
          Nat.add_left_comm]
        simp only [min_assoc]
        simp only [min_comm, min_left_comm]
      | x :: xs, y :: ys =>
        have hxy : xs.length + (y :: ys).length ≤ n := by
          simp at h ⊢; omega
        have hyx : (x :: xs).length + ys.length ≤ n := by
          simp at h ⊢; omega
        have hxx : xs.length + ys.length ≤ n := by
          simp at h ⊢; omega
        have h1 := ih xs (y :: ys) hxy
        have h2 := ih (x :: xs) ys hyx
        have h3 := ih xs ys hxx
        simp only [List.cons_append] at h1 h2 h3 ⊢
        rw [levRef_cons_cons x y, h1, h2, h3,
          levRef_cons_cons x y, levRef_cons_cons x y, levRef_cons_cons x y]
        simp only [← min_add_add_right]
        simp only [Nat.zero_add, Nat.add_zero, Nat.add_assoc, Nat.add_comm,
          Nat.add_left_comm]
        simp only [min_assoc]
        simp only [min_comm, min_left_comm]
  exact key (xs.length + ys.length) xs ys le_rfl

theorem levRef_reverse (xs ys : Str) :
    levRef xs.reverse ys.reverse = levRef xs ys := by
  have key : ∀ n (xs ys : Str), xs.length + ys.length ≤ n →
      levRef xs.reverse ys.reverse = levRef xs ys := by
    intro n
    induction n with
    | zero =>
      intro xs ys h
      have hxs : xs = [] := by cases xs <;> simp_all
      have hys : ys = [] := by cases ys <;> simp_all
      subst hxs; subst hys; rfl
    | succ n ih =>
      intro xs ys h
      match xs, ys with
      | [], ys => simp [levRef_nil_left]
      | x :: xs, [] => simp [levRef_nil_right]
      | x :: xs, y :: ys =>
        have e1 : (x :: xs).reverse = xs.reverse ++ [x] := by simp
        have e2 : (y :: ys).reverse = ys.reverse ++ [y] := by simp
        rw [e1, e2, levRef_snoc]
        have r1 : levRef xs.reverse (ys.reverse ++ [y]) =
            levRef xs (y :: ys) := by
          rw [← e2]
          exact ih xs (y :: ys) (by simp at h ⊢; omega)
        have r2 : levRef (xs.reverse ++ [x]) ys.reverse =
            levRef (x :: xs) ys := by
          rw [← e1]
          exact ih (x :: xs) ys (by simp at h ⊢; omega)
        have r3 : levRef xs.reverse ys.reverse = levRef xs ys :=
          ih xs ys (by simp at h ⊢; omega)
        rw [r1, r2, r3, levRef_cons_cons]
  exact key (xs.length + ys.length) xs ys le_rfl

theorem levMatrixF_spec :
    ∀ (fuel : Nat) (s1 s2 : Str) (i j : Nat), i + j ≤ fuel →
      i ≤ s1.length → j ≤ s2.length →
      levMatrixF s1 s2 fuel i j =
        levRef ((s1.take i).reverse) ((s2.take j).reverse) := by
  intro fuel
  induction fuel with
  | zero =>
    intro s1 s2 i j hf hi hj
    match i, j with
    | 0, j =>
      simp only [levMatrixF, levRef_nil_left, List.take_zero,
        List.reverse_nil, List.length_reverse, List.length_take]
      omega
    | i + 1, 0 =>
      simp only [levMatrixF, levRef_nil_right, List.take_zero,
        List.reverse_nil, List.length_reverse, List.length_take]
      omega
    | i + 1, j + 1 => omega
  | succ fuel ih =>
    intro s1 s2 i j hf hi hj
    match i, j with
    | 0, j =>
      simp only [levMatrixF, levRef_nil_left, List.take_zero,
        List.reverse_nil, List.length_reverse, List.length_take]
      omega
    | i + 1, 0 =>
      simp only [levMatrixF, levRef_nil_right, List.take_zero,
        List.reverse_nil, List.length_reverse, List.length_take]
      omega
    | i + 1, j + 1 =>
      have hi' : i < s1.length := by omega
      have hj' : j < s2.length := by omega
      have e1 : s1.take (i + 1) = s1.take i ++ [s1[i]] := by
        rw [List.take_succ, List.getElem?_eq_getElem hi']
        rfl
      have e2 : s2.take (j + 1) = s2.take j ++ [s2[j]] := by
        rw [List.take_succ, List.getElem?_eq_getElem hj']
        rfl
      have r1 := ih s1 s2 i (j + 1) (by omega) (by omega) hj
      have r2 := ih s1 s2 (i + 1) j (by omega) hi (by omega)
      have r3 := ih s1 s2 i j (by omega) (by omega) (by omega)
      show min (levMatrixF s1 s2 fuel i (j + 1) + 1)
          (min (levMatrixF s1 s2 fuel (i + 1) j + 1)
            (levMatrixF s1 s2 fuel i j +
              if s1.getD i ' ' = s2.getD j ' ' then 0 else 1)) = _
      rw [r1, r2, r3, e1, e2]
      simp only [List.reverse_append, List.reverse_cons, List.reverse_nil,
        List.nil_append, List.cons_append, List.singleton_append]
      rw [levRef_cons_cons]
      have d1 : s1.getD i ' ' = s1[i] := by
        simp [List.getD_eq_getElem?_getD, List.getElem?_eq_getElem hi']
      have d2 : s2.getD j ' ' = s2[j] := by
        simp [List.getD_eq_getElem?_getD, List.getElem?_eq_getElem hj']
      rw [d1, d2]

theorem levenshteinDistance_eq (s1 s2 : Str) :
    levenshteinDistance s1 s2 = levRef s1 s2 := by
  unfold levenshteinDistance
  split_ifs with h1 h2 h3
  · rw [h1, levRef_self]
  · rw [h2, levRef_nil_left]
  · rw [h3, levRef_nil_right]
  · rw [levMatrixF_spec (s1.length + s2.length) s1 s2 s1.length s2.length
      le_rfl le_rfl le_rfl, List.take_length s1, List.take_length s2,
      levRef_reverse]

theorem levenshteinDistanceEval_eq (s1 s2 : Str) :
    levenshteinDistanceEval s1 s2 = levRef s1 s2 := by
  unfold levenshteinDistanceEval
  split_ifs with h1 h2
  · rw [h1, levRef_nil_left]
  · rw [h2, levRef_nil_right]
  · rw [levMatrixF_spec (s1.length + s2.length) s1 s2 s1.length s2.length
      le_rfl le_rfl le_rfl, List.take_length s1, List.take_length s2,
      levRef_reverse]

theorem calculateSimilarity_eq_spec (a b : Str) (ha : a ≠ []) (hb : b ≠ [])
    (hab : a ≠ b) : calculateSimilarity a b = similaritySpec a b := by
  unfold calculateSimilarity similaritySpec
  rw [if_neg hab, if_neg, levenshteinDistance_eq]
  simp only [List.length_eq_zero]
  tauto

theorem levRef_cast_le_max (a b : Str) :
    (levRef a b : ℚ) ≤ (max a.length b.length : ℕ) := by
  exact_mod_cast levRef_le_max a b

theorem calculateSimilarity_bounds (a b : Str) :
    0 ≤ calculateSimilarity a b ∧ calculateSimilarity a b ≤ 1 := by
  unfold calculateSimilarity
  split_ifs with h1 h2
  · norm_num
  · norm_num
  · have hmax : (0 : ℚ) < (max a.length b.length : ℕ) := by
      have : a.length ≠ 0 ∨ b.length ≠ 0 := by tauto
      have : 0 < max a.length b.length := by omega
      exact_mod_cast this
    have hle : (levenshteinDistance a b : ℚ) ≤ (max a.length b.length : ℕ) := by
      rw [levenshteinDistance_eq]
      exact levRef_cast_le_max a b
    have h0 : (0 : ℚ) ≤ (levenshteinDistance a b : ℚ) := by positivity
    constructor
    · have : (levenshteinDistance a b : ℚ) / (max a.length b.length : ℕ) ≤ 1 :=
        (div_le_one hmax).mpr hle
      push_cast at this ⊢
      linarith
    · have : 0 ≤ (levenshteinDistance a b : ℚ) / (max a.length b.length : ℕ) :=
        div_nonneg h0 (le_of_lt hmax)
      push_cast at this ⊢
      linarith

theorem one_sub_div_bounds (d m : ℚ) (h0 : 0 ≤ d) (hdm : d ≤ m)
    (hm : 0 < m) : 0 ≤ 1 - d / m ∧ 1 - d / m ≤ 1 := by
  constructor
  · have : d / m ≤ 1 := (div_le_one hm).mpr hdm
    linarith
  · have : 0 ≤ d / m := div_nonneg h0 (le_of_lt hm)
    linarith

theorem stringSimilarity_bounds (a b : Str) :
    0 ≤ stringSimilarity a b ∧ stringSimilarity a b ≤ 1 := by
  unfold stringSimilarity
  dsimp only
  split_ifs with h1 h2
  · norm_num
  · norm_num
  · apply one_sub_div_bounds
    · positivity
    · rw [levenshteinDistanceEval_eq]
      have := levRef_le_max (toLowerStr (trimSpace a)) (toLowerStr (trimSpace b))
      exact_mod_cast this
    · have h0 : (0 : ℚ) ≤ max ((toLowerStr (trimSpace a)).length : ℚ)
          ((toLowerStr (trimSpace b)).length : ℚ) :=
        le_max_of_le_left (Nat.cast_nonneg _)
      exact lt_of_le_of_ne h0 (Ne.symm h2)

theorem normalizeForComparison_nil : normalizeForComparison [] = [] := rfl

theorem normalizeText_nil : normalizeText [] = [] := rfl

theorem compareField_sim_branch (expected actual : Str) (fn : String)
    (he : expected ≠ []) (ha : actual ≠ [])
    (hne : normalizeForComparison expected ≠ normalizeForComparison actual)
    (hsub : ¬ (normalizeForComparison expected <:+:
        normalizeForComparison actual ∨
      normalizeForComparison actual <:+: normalizeForComparison expected)) :
    compareField expected actual fn =
      ⟨expected, actual,
        calculateSimilarity (normalizeForComparison expected)
          (normalizeForComparison actual),
        if calculateSimilarity (normalizeForComparison expected)
            (normalizeForComparison actual) > 7/10 then "fuzzy_high"
        else if calculateSimilarity (normalizeForComparison expected)
            (normalizeForComparison actual) > 2/5 then "fuzzy_medium"
        else "no_match"⟩ := by
  unfold compareField
  dsimp only
  rw [if_neg (fun h => he h.1), if_neg he, if_neg ha, if_neg hne, if_neg hsub]

theorem metadataCompareField_sim_branch (fn : String) (expected actual : Str)
    (h1 : normalizeText expected ≠ []) (h2 : normalizeText actual ≠ [])
    (hne : normalizeText expected ≠ normalizeText actual) :
    metadataCompareField fn expected actual =
      ⟨fn, expected, actual,
        1 - (levenshteinDistance (normalizeText expected)
            (normalizeText actual) : ℚ) /
          ((max (normalizeText expected).length
            (normalizeText actual).length : ℕ) : ℚ),
        levenshteinDistance (normalizeText expected) (normalizeText actual),
        if (1 - (levenshteinDistance (normalizeText expected)
              (normalizeText actual) : ℚ) /
            ((max (normalizeText expected).length
              (normalizeText actual).length : ℕ) : ℚ)) > 9/10 then
          "fuzzy_high"
        else if (1 - (levenshteinDistance (normalizeText expected)
              (normalizeText actual) : ℚ) /
            ((max (normalizeText expected).length
              (normalizeText actual).length : ℕ) : ℚ)) > 7/10 then
          "fuzzy_medium"
        else if (1 - (levenshteinDistance (normalizeText expected)
              (normalizeText actual) : ℚ) /
            ((max (normalizeText expected).length
              (normalizeText actual).length : ℕ) : ℚ)) > 1/2 then
          "fuzzy_low"
        else "no_match"⟩ := by
  unfold metadataCompareField
  dsimp only
  rw [if_neg (fun h => h1 h.1), if_neg h1, if_neg h2, if_neg hne]

/-- C5: for non-empty unequal inputs the similarity function returns
`1 − d / max(len a, len b)` with `d` the unit-cost Levenshtein distance
(`similaritySpec`, built on Mathlib's `levenshtein` with unit costs); with
exactly one input empty it returns 0; with equal inputs it returns 1. -/
theorem claim_C5_similarity (a b : Str) :
    (a ≠ [] → b ≠ [] → a ≠ b →
      calculateSimilarity a b = similaritySpec a b) ∧
    ((a = [] ∧ b ≠ []) ∨ (a ≠ [] ∧ b = []) → calculateSimilarity a b = 0) ∧
    (a = b → calculateSimilarity a b = 1) := by
  refine ⟨fun ha hb hab => calculateSimilarity_eq_spec a b ha hb hab,
    fun h => ?_, fun h => ?_⟩
  · unfold calculateSimilarity
    rcases h with ⟨ha, hb⟩ | ⟨ha, hb⟩
    · rw [if_neg (by rw [ha]; exact fun e => hb e.symm), if_pos]
      left
      rw [ha]
      rfl
    · rw [if_neg (by rw [hb]; exact ha), if_pos]
      right
      rw [hb]
      rfl
  · unfold calculateSimilarity
    rw [if_pos h]

/-- Witness for C5 at a = "ab", b = "ba". -/
theorem claim_C5_similarity_witness :
    calculateSimilarity ['a', 'b'] ['b', 'a'] =
      similaritySpec ['a', 'b'] ['b', 'a'] :=
  (claim_C5_similarity ['a', 'b'] ['b', 'a']).1 (by decide) (by decide)
    (by decide)

/-- C1 (amended): the 0.8/0.5 classification bands hold for the
similarity-scoring branch of `CompareMARCRecords` (labels `fuzzy_high` /
`fuzzy_medium` / `no_match`), with the similarity being exactly the spec
formula; the five-field comparator `compareField` instead uses 0.7/0.4
bands (see the counterexample). -/
theorem claim_C1_bands (rv gv : Str)
    (h1 : normalizeForComparison rv ≠ [])
    (h2 : normalizeForComparison gv ≠ [])
    (hne : normalizeForComparison rv ≠ normalizeForComparison gv) :
    (marcCompareTag rv gv).1.score =
      similaritySpec (normalizeForComparison rv)
        (normalizeForComparison gv) ∧
    (similaritySpec (normalizeForComparison rv) (normalizeForComparison gv)
        > 4/5 → (marcCompareTag rv gv).1.method = "fuzzy_high") ∧
    (¬ similaritySpec (normalizeForComparison rv) (normalizeForComparison gv)
        > 4/5 →
      similaritySpec (normalizeForComparison rv) (normalizeForComparison gv)
        > 1/2 → (marcCompareTag rv gv).1.method = "fuzzy_medium") ∧
    (¬ similaritySpec (normalizeForComparison rv) (normalizeForComparison gv)
        > 4/5 →
      ¬ similaritySpec (normalizeForComparison rv) (normalizeForComparison gv)
        > 1/2 → (marcCompareTag rv gv).1.method = "no_match") := by
  have hcs : calculateSimilarity (normalizeForComparison rv)
      (normalizeForComparison gv) =
      similaritySpec (normalizeForComparison rv) (normalizeForComparison gv) :=
    calculateSimilarity_eq_spec _ _ h1 h2 hne
  unfold marcCompareTag
  dsimp only
  rw [if_neg hne, hcs]
  refine ⟨rfl, fun hh => ?_, fun hh hm => ?_, fun hh hm => ?_⟩
  · simp only [if_pos hh]
  · simp only [if_neg hh, if_pos hm]
  · simp only [if_neg hh, if_neg hm]

/-- Witness for C1 at rv = "abcd", gv = "abcx". -/
theorem claim_C1_bands_witness :
    (marcCompareTag ['a', 'b', 'c', 'd'] ['a', 'b', 'c', 'x']).1.score =
      similaritySpec (normalizeForComparison ['a', 'b', 'c', 'd'])
        (normalizeForComparison ['a', 'b', 'c', 'x']) :=
  (claim_C1_bands ['a', 'b', 'c', 'd'] ['a', 'b', 'c', 'x'] (by decide)
    (by decide) (by decide)).1

/-- C1 counterexample: in the five-field comparator `compareField`, the
values "abcd" / "abcx" (normalized forms non-empty, unequal, neither a
substring of the other) reach the similarity branch with similarity
exactly 3/4 — inside the claimed medium band (≤ 0.8 and > 0.5) — yet the
classification produced is the high-band label `fuzzy_high`, because
`compareField` uses the 0.7/0.4 thresholds. -/
theorem claim_C1_counterexample :
    (compareField ['a', 'b', 'c', 'd'] ['a', 'b', 'c', 'x'] "title").method =
      "fuzzy_high" ∧
    (compareField ['a', 'b', 'c', 'd'] ['a', 'b', 'c', 'x'] "title").score =
      3/4 ∧
    similaritySpec (normalizeForComparison ['a', 'b', 'c', 'd'])
      (normalizeForComparison ['a', 'b', 'c', 'x']) = 3/4 ∧
    ¬ ((3 : ℚ)/4 > 4/5) ∧ ((3 : ℚ)/4 > 1/2) ∧
    normalizeForComparison ['a', 'b', 'c', 'd'] ≠ [] ∧
    normalizeForComparison ['a', 'b', 'c', 'x'] ≠ [] ∧
    normalizeForComparison ['a', 'b', 'c', 'd'] ≠
      normalizeForComparison ['a', 'b', 'c', 'x'] ∧
    ¬ (normalizeForComparison ['a', 'b', 'c', 'd'] <:+:
        normalizeForComparison ['a', 'b', 'c', 'x'] ∨
      normalizeForComparison ['a', 'b', 'c', 'x'] <:+:
        normalizeForComparison ['a', 'b', 'c', 'd']) := by
  have e1 : normalizeForComparison ['a', 'b', 'c', 'd'] =
      ['a', 'b', 'c', 'd'] := by decide
  have e2 : normalizeForComparison ['a', 'b', 'c', 'x'] =
      ['a', 'b', 'c', 'x'] := by decide
  have hd : levenshteinDistance ['a', 'b', 'c', 'd'] ['a', 'b', 'c', 'x'] =
      1 := by decide
  have hsim : calculateSimilarity (normalizeForComparison ['a', 'b', 'c', 'd'])
      (normalizeForComparison ['a', 'b', 'c', 'x']) = 3/4 := by
    rw [e1, e2]
    unfold calculateSimilarity
    rw [if_neg (by decide), if_neg (by decide), hd]
    norm_num
  have hcf := compareField_sim_branch ['a', 'b', 'c', 'd'] ['a', 'b', 'c', 'x']
    "title" (by decide) (by decide) (by decide) (by decide)
  refine ⟨?_, ?_, ?_, by norm_num, by norm_num, by decide, by decide,
    by decide, by decide⟩
  · rw [hcf]
    dsimp only
    rw [hsim]
    norm_num
  · rw [hcf]
    dsimp only
    rw [hsim]
  · have hr : levRef (normalizeForComparison ['a', 'b', 'c', 'd'])
        (normalizeForComparison ['a', 'b', 'c', 'x']) = 1 := by
      rw [← levenshteinDistance_eq, e1, e2, hd]
    unfold similaritySpec
    rw [hr, e1, e2]
    norm_num

/-- C4 (amended): in the five-field comparator `compareField`, whenever the
normalized values are non-empty, unequal and one contains the other, the
result is classification `substring` with score exactly 0.8 (the
Levenshtein branch is never reached); the metadata comparator has no
substring rule at all (see the counterexample). -/
theorem claim_C4_substring (expected actual : Str) (fieldName : String)
    (h1 : normalizeForComparison expected ≠ [])
    (h2 : normalizeForComparison actual ≠ [])
    (hne : normalizeForComparison expected ≠ normalizeForComparison actual)
    (hsub : normalizeForComparison expected <:+: normalizeForComparison actual
      ∨ normalizeForComparison actual <:+: normalizeForComparison expected) :
    (compareField expected actual fieldName).method = "substring" ∧
    (compareField expected actual fieldName).score = 4/5 := by
  have he : expected ≠ [] := fun h => h1 (by rw [h]; rfl)
  have ha : actual ≠ [] := fun h => h2 (by rw [h]; rfl)
  unfold compareField
  dsimp only
  rw [if_neg (fun h => he h.1), if_neg he, if_neg ha, if_neg hne,
    if_pos hsub]
  exact ⟨rfl, rfl⟩

/-- Witness for C4 at expected = "cat!", actual = "the cat" (normalized
"cat" is contained in "the cat"). -/
theorem claim_C4_substring_witness :
    (compareField ['c', 'a', 't', '!'] ['t', 'h', 'e', ' ', 'c', 'a', 't']
      "title").method = "substring" ∧
    (compareField ['c', 'a', 't', '!'] ['t', 'h', 'e', ' ', 'c', 'a', 't']
      "title").score = 4/5 :=
  claim_C4_substring ['c', 'a', 't', '!'] ['t', 'h', 'e', ' ', 'c', 'a', 't']
    "title" (by decide) (by decide) (by decide) (by decide)

/-- C4 counterexample: the metadata comparator's `compareField` is a field
comparison of this program in which the normalized values "ab" / "b" are
non-empty, unequal, and one contains the other, yet the result is
classification `no_match` with score 1/2 < 0.8 — the substring rule does
not exist there and the edit distance is computed first. -/
theorem claim_C4_counterexample :
    normalizeText ['a', 'b'] ≠ [] ∧ normalizeText ['b'] ≠ [] ∧
    normalizeText ['a', 'b'] ≠ normalizeText ['b'] ∧
    (normalizeText ['b'] <:+: normalizeText ['a', 'b']) ∧
    (metadataCompareField "title" ['a', 'b'] ['b']).matchLabel =
      "no_match" ∧
    (metadataCompareField "title" ['a', 'b'] ['b']).score = 1/2 ∧
    ¬ ((1 : ℚ)/2 ≥ 4/5) := by
  have e1 : normalizeText ['a', 'b'] = ['a', 'b'] := by decide
  have e2 : normalizeText ['b'] = ['b'] := by decide
  have hd : levenshteinDistance ['a', 'b'] ['b'] = 1 := by decide
  have hmc := metadataCompareField_sim_branch "title" ['a', 'b'] ['b']
    (by decide) (by decide) (by decide)
  refine ⟨by decide, by decide, by decide, by decide, ?_, ?_, by norm_num⟩
  · rw [hmc]
    dsimp only
    rw [e1, e2, hd]
    norm_num
  · rw [hmc]
    dsimp only
    rw [e1, e2, hd]
    norm_num

theorem crStep_totalWeight (rf gf : List (String × Str)) (st : CRState)
    (fw : String × ℚ) :
    (crStep rf gf st fw).totalWeight = st.totalWeight + fw.2 := by
  unfold crStep
  dsimp only
  split_ifs <;> rfl

theorem crFold_totalWeight (rf gf : List (String × Str)) :
    ∀ (ws : List (String × ℚ)) (st : CRState),
      (ws.foldl (crStep rf gf) st).totalWeight =
        st.totalWeight + weightTotal ws := by
  intro ws
  induction ws with
  | nil => intro st; simp [weightTotal]
  | cons fw ws ih =>
    intro st
    simp only [List.foldl_cons, ih, crStep_totalWeight, weightTotal,
      List.map_cons, List.sum_cons]
    ring

theorem crFold_fieldScores_mono (rf gf : List (String × Str)) :
    ∀ (ws : List (String × ℚ)) (st : CRState) (p : String × ℚ),
      p ∈ st.fieldScores → p ∈ (ws.foldl (crStep rf gf) st).fieldScores := by
  intro ws
  induction ws with
  | nil => intro st p h; simpa using h
  | cons fw ws ih =>
    intro st p h
    simp only [List.foldl_cons]
    apply ih
    unfold crStep
    dsimp only
    split_ifs <;> simp [h]

theorem crFold_both_missing_mem (rf gf : List (String × Str)) :
    ∀ (ws : List (String × ℚ)) (st : CRState) (tag : String) (w : ℚ),
      (tag, w) ∈ ws → valuesOf tag rf = [] → valuesOf tag gf = [] →
      (tag, (1 : ℚ)) ∈ (ws.foldl (crStep rf gf) st).fieldScores := by
  intro ws
  induction ws with
  | nil => intro st tag w h; simp at h
  | cons fw ws ih =>
    intro st tag w hmem h1 h2
    simp only [List.foldl_cons]
    rcases List.mem_cons.mp hmem with he | ht
    · apply crFold_fieldScores_mono
      rw [← he]
      unfold crStep
      dsimp only
      rw [if_pos ⟨h1, h2⟩]
      simp
    · exact ih _ tag w ht h1 h2

theorem crStep_bounds (rf gf : List (String × Str)) (st : CRState)
    (fw : String × ℚ) (hw : 0 ≤ fw.2)
    (h1 : 0 ≤ st.weightedScore) (h2 : st.weightedScore ≤ st.totalWeight)
    (h3 : ∀ p ∈ st.fieldScores, 0 ≤ p.2 ∧ p.2 ≤ 1) :
    0 ≤ (crStep rf gf st fw).weightedScore ∧
    (crStep rf gf st fw).weightedScore ≤ (crStep rf gf st fw).totalWeight ∧
    (∀ p ∈ (crStep rf gf st fw).fieldScores, 0 ≤ p.2 ∧ p.2 ≤ 1) := by
  obtain ⟨hs0, hs1⟩ := stringSimilarity_bounds
    ((valuesOf fw.1 rf).headD []) ((valuesOf fw.1 gf).headD [])
  unfold crStep
  dsimp only
  split_ifs with c1 c2 c3
  · dsimp only
    refine ⟨by linarith, by linarith, ?_⟩
    intro p hp
    rcases List.mem_append.mp hp with h | h
    · exact h3 p h
    · rw [List.mem_singleton] at h
      subst h
      norm_num
  · dsimp only
    refine ⟨by linarith, by nlinarith, ?_⟩
    intro p hp
    rcases List.mem_append.mp hp with h | h
    · exact h3 p h
    · rw [List.mem_singleton] at h
      subst h
      norm_num
  · dsimp only
    refine ⟨by linarith, by linarith, ?_⟩
    intro p hp
    rcases List.mem_append.mp hp with h | h
    · exact h3 p h
    · rw [List.mem_singleton] at h
      subst h
      norm_num
  · dsimp only
    refine ⟨by nlinarith, by nlinarith, ?_⟩
    intro p hp
    rcases List.mem_append.mp hp with h | h
    · exact h3 p h
    · rw [List.mem_singleton] at h
      subst h
      exact ⟨hs0, hs1⟩

theorem crFold_bounds (rf gf : List (String × Str)) :
    ∀ (ws : List (String × ℚ)) (st : CRState), (∀ p ∈ ws, 0 ≤ p.2) →
      0 ≤ st.weightedScore → st.weightedScore ≤ st.totalWeight →
      (∀ p ∈ st.fieldScores, 0 ≤ p.2 ∧ p.2 ≤ 1) →
      0 ≤ (ws.foldl (crStep rf gf) st).weightedScore ∧
      (ws.foldl (crStep rf gf) st).weightedScore ≤
        (ws.foldl (crStep rf gf) st).totalWeight ∧
      (∀ p ∈ (ws.foldl (crStep rf gf) st).fieldScores,
        0 ≤ p.2 ∧ p.2 ≤ 1) := by
  intro ws
  induction ws with
  | nil => intro st _ h1 h2 h3; exact ⟨h1, h2, h3⟩
  | cons fw ws ih =>
    intro st hws h1 h2 h3
    simp only [List.foldl_cons]
    obtain ⟨g1, g2, g3⟩ := crStep_bounds rf gf st fw
      (hws fw (List.mem_cons_self fw ws)) h1 h2 h3
    exact ih _ (fun p hp => hws p (List.mem_cons_of_mem fw hp)) g1 g2 g3

theorem compareField_score_bounds (e a : Str) (fn : String) :
    0 ≤ (compareField e a fn).score ∧ (compareField e a fn).score ≤ 1 := by
  unfold compareField
  dsimp only
  split_ifs
  · dsimp only
    norm_num
  · dsimp only
    norm_num
  · dsimp only
    norm_num
  · dsimp only
    norm_num
  · dsimp only
    norm_num
  · exact calculateSimilarity_bounds _ _
  · exact calculateSimilarity_bounds _ _
  · exact calculateSimilarity_bounds _ _

/-- C6: every per-field score of the five-field comparator lies in [0,1];
the fixed-weight overall score of `CompareMARCFields` lies in [0,1]; and for
any weight table with non-negative weights and positive total, the overall
score and every per-field score of `CompareRecords` lie in [0,1]. -/
theorem claim_C6_bounds :
    (∀ (e a : Str) (fn : String),
      0 ≤ (compareField e a fn).score ∧ (compareField e a fn).score ≤ 1) ∧
    (∀ eT aT eA aA eD aD eI aI eS aS : Str,
      0 ≤ (compareMARCFieldsCore eT aT eA aA eD aD eI aI eS aS).overallScore ∧
      (compareMARCFieldsCore eT aT eA aA eD aD eI aI eS aS).overallScore
        ≤ 1) ∧
    (∀ (ws : List (String × ℚ)) (rf gf : List (String × Str)),
      (∀ p ∈ ws, 0 ≤ p.2) → 0 < weightTotal ws →
      0 ≤ (compareRecordsCoreW ws rf gf).overallScore ∧
      (compareRecordsCoreW ws rf gf).overallScore ≤ 1 ∧
      ∀ p ∈ (compareRecordsCoreW ws rf gf).fieldScores,
        0 ≤ p.2 ∧ p.2 ≤ 1) := by
  refine ⟨compareField_score_bounds, ?_, ?_⟩
  · intro eT aT eA aA eD aD eI aI eS aS
    obtain ⟨t0, t1⟩ := compareField_score_bounds eT aT "title"
    obtain ⟨a0, a1⟩ := compareField_score_bounds eA aA "author"
    obtain ⟨d0, d1⟩ := compareField_score_bounds eD aD "date"
    obtain ⟨i0, i1⟩ := compareField_score_bounds eI aI "isbn"
    obtain ⟨s0, s1⟩ := compareField_score_bounds eS aS "subject"
    unfold compareMARCFieldsCore
    dsimp only
    constructor
    · nlinarith
    · nlinarith
  · intro ws rf gf hnn hpos
    obtain ⟨g1, g2, g3⟩ := crFold_bounds rf gf ws ⟨0, 0, [], [], [], []⟩
      hnn le_rfl le_rfl (by intro p hp; simp at hp)
    have htw : (ws.foldl (crStep rf gf) ⟨0, 0, [], [], [], []⟩).totalWeight =
        weightTotal ws := by
      rw [crFold_totalWeight]
      ring
    unfold compareRecordsCoreW
    dsimp only
    rw [if_pos (by rw [htw]; exact hpos)]
    refine ⟨div_nonneg g1 (by rw [htw]; linarith), ?_, g3⟩
    rw [div_le_one (by rw [htw]; linarith)]
    exact g2

/-- Witness for C6 at the default weight table and two empty records. -/
theorem claim_C6_bounds_witness :
    0 ≤ (compareRecordsCoreW DefaultFieldWeights [] []).overallScore :=
  (claim_C6_bounds.2.2 DefaultFieldWeights [] []
    (by intro p hp; fin_cases hp <;> norm_num)
    (by norm_num [weightTotal, DefaultFieldWeights])).1

/-- C3 (amended): the five-field comparator `compareField` scores a pair of
empty raw values as exactly 0.5 with classification `both_missing`, and the
metadata comparator scores a pair of empty normalized values as 0.5 with
classification `both_empty`; the weighted record comparator
`CompareRecords`, however, scores a configured tag absent from both records
as 1.0 (a perfect match), not 0.5 (see the counterexample). -/
theorem claim_C3_both_missing :
    (∀ fn : String, (compareField [] [] fn).score = 1/2 ∧
      (compareField [] [] fn).method = "both_missing") ∧
    (∀ (fn : String) (e a : Str),
      normalizeText e = [] → normalizeText a = [] →
      (metadataCompareField fn e a).score = 1/2 ∧
      (metadataCompareField fn e a).matchLabel = "both_empty") ∧
    (∀ (ws : List (String × ℚ)) (rf gf : List (String × Str))
      (tag : String) (w : ℚ), (tag, w) ∈ ws →
      valuesOf tag rf = [] → valuesOf tag gf = [] →
      (tag, (1 : ℚ)) ∈ (compareRecordsCoreW ws rf gf).fieldScores) := by
  refine ⟨?_, ?_, ?_⟩
  · intro fn
    unfold compareField
    dsimp only
    rw [if_pos ⟨rfl, rfl⟩]
    exact ⟨rfl, rfl⟩
  · intro fn e a h1 h2
    unfold metadataCompareField
    dsimp only
    rw [if_pos ⟨h1, h2⟩]
    exact ⟨rfl, rfl⟩
  · intro ws rf gf tag w hm h1 h2
    unfold compareRecordsCoreW
    dsimp only
    exact crFold_both_missing_mem rf gf ws _ tag w hm h1 h2

/-- Witness for C3 with the metadata comparator on two empty values. -/
theorem claim_C3_both_missing_witness :
    (metadataCompareField "title" [] []).score = 1/2 ∧
    (metadataCompareField "title" [] []).matchLabel = "both_empty" :=
  claim_C3_both_missing.2.1 "title" [] [] rfl rfl

/-- C3 counterexample: in `CompareRecords`, the configured tag "020"
extracts empty on both sides of two empty records, yet its recorded field
score is 1.0, not 0.5, and the overall score of the two empty records is a
perfect 1.0. -/
theorem claim_C3_counterexample :
    valuesOf "020" ([] : List (String × Str)) = [] ∧
    ("020", (1 : ℚ)) ∈ (compareRecordsCore [] []).fieldScores ∧
    (compareRecordsCore [] []).overallScore = 1 ∧ ((1 : ℚ) ≠ 1/2) := by
  refine ⟨rfl, ?_, ?_, by norm_num⟩
  · unfold compareRecordsCore compareRecordsCoreW
    dsimp only
    exact crFold_both_missing_mem [] [] DefaultFieldWeights _ "020" (1/20)
      (by unfold DefaultFieldWeights; exact List.mem_cons_self _ _) rfl rfl
  · norm_num [compareRecordsCore, compareRecordsCoreW, DefaultFieldWeights,
      crStep, valuesOf, List.foldl]

/-- C8: the weighted record comparator performs no validation of the total
selector weight.  With an all-zero weight table (total weight 0) on two
empty records — where every configured tag agrees perfectly and every
recorded field score is 1.0 — it silently produces a result whose overall
score is 0 instead of surfacing an error (its only error paths are the two
MARC parse failures, which precede the weighted loop).  The hard-wired
`DefaultFieldWeights` table totals 1.15, so the default path never
triggers this. -/
theorem claim_C8_zero_weight :
    weightTotal (DefaultFieldWeights.map (fun p => (p.1, (0 : ℚ)))) = 0 ∧
    (compareRecordsCoreW (DefaultFieldWeights.map (fun p => (p.1, (0 : ℚ))))
      [] []).overallScore = 0 ∧
    ("245", (1 : ℚ)) ∈ (compareRecordsCoreW
      (DefaultFieldWeights.map (fun p => (p.1, (0 : ℚ)))) [] []).fieldScores ∧
    weightTotal DefaultFieldWeights = 23/20 := by
  have hzw : weightTotal (DefaultFieldWeights.map (fun p => (p.1, (0:ℚ)))) =
      0 := by
    norm_num [weightTotal, DefaultFieldWeights]
  refine ⟨hzw, ?_, ?_, by norm_num [weightTotal, DefaultFieldWeights]⟩
  · unfold compareRecordsCoreW
    dsimp only
    rw [if_neg]
    rw [crFold_totalWeight, hzw]
    norm_num
  · unfold compareRecordsCoreW
    dsimp only
    refine crFold_both_missing_mem [] [] _ _ "245" 0 ?_ rfl rfl
    norm_num [DefaultFieldWeights]

theorem marcRefStep_totalScore (gf : List (String × Str))
    (st : MarcCmpState) (p : String × Str) :
    (marcRefStep gf st p).totalScore = st.totalScore + refPairScore gf p := by
  unfold marcRefStep refPairScore
  cases h : gf.lookup p.1 <;> dsimp only <;> ring

theorem marcRefStep_fieldCount (gf : List (String × Str))
    (st : MarcCmpState) (p : String × Str) :
    (marcRefStep gf st p).fieldCount = st.fieldCount + 1 := by
  unfold marcRefStep
  cases h : gf.lookup p.1 <;> dsimp only <;> rfl

theorem marcRefFold_spec (gf : List (String × Str)) :
    ∀ (rf : List (String × Str)) (st : MarcCmpState),
      ((rf.foldl (marcRefStep gf) st).totalScore =
        st.totalScore + (rf.map (refPairScore gf)).sum) ∧
      ((rf.foldl (marcRefStep gf) st).fieldCount =
        st.fieldCount + rf.length) := by
  intro rf
  induction rf with
  | nil => intro st; simp
  | cons p rf ih =>
    intro st
    simp only [List.foldl_cons, List.map_cons, List.sum_cons,
      List.length_cons]
    obtain ⟨ih1, ih2⟩ := ih (marcRefStep gf st p)
    rw [ih1, ih2, marcRefStep_totalScore, marcRefStep_fieldCount]
    constructor
    · ring
    · omega

theorem marcExtraStep_totalScore (rf : List (String × Str))
    (st : MarcCmpState) (p : String × Str) :
    (marcExtraStep rf st p).totalScore = st.totalScore := by
  unfold marcExtraStep
  split_ifs <;> rfl

theorem marcExtraStep_fieldCount (rf : List (String × Str))
    (st : MarcCmpState) (p : String × Str) :
    (marcExtraStep rf st p).fieldCount =
      st.fieldCount + (if rf.lookup p.1 = none then 1 else 0) := by
  unfold marcExtraStep
  split_ifs <;> rfl

theorem marcExtraFold_spec (rf : List (String × Str)) :
    ∀ (gf : List (String × Str)) (st : MarcCmpState),
      ((gf.foldl (marcExtraStep rf) st).totalScore = st.totalScore) ∧
      ((gf.foldl (marcExtraStep rf) st).fieldCount =
        st.fieldCount + extraCount rf gf) := by
  intro gf
  induction gf with
  | nil => intro st; simp [extraCount]
  | cons p gf ih =>
    intro st
    simp only [List.foldl_cons]
    obtain ⟨ih1, ih2⟩ := ih (marcExtraStep rf st p)
    rw [ih1, ih2, marcExtraStep_totalScore, marcExtraStep_fieldCount]
    refine ⟨rfl, ?_⟩
    unfold extraCount
    rw [List.filter_cons]
    by_cases h : rf.lookup p.1 = none
    · simp [h]
      omega
    · simp [h]

theorem marcExtraFold_fields_mono (rf : List (String × Str)) :
    ∀ (gf : List (String × Str)) (st : MarcCmpState)
      (q : String × FieldMatch), q ∈ st.fields →
      q ∈ (gf.foldl (marcExtraStep rf) st).fields := by
  intro gf
  induction gf with
  | nil => intro st q h; simpa using h
  | cons p gf ih =>
    intro st q h
    simp only [List.foldl_cons]
    apply ih
    unfold marcExtraStep
    split_ifs <;> simp [h]

theorem marcExtraFold_mem (rf : List (String × Str)) :
    ∀ (gf : List (String × Str)) (st : MarcCmpState) (p : String × Str),
      p ∈ gf → rf.lookup p.1 = none →
      (p.1, (⟨[], p.2, 0, "extra"⟩ : FieldMatch)) ∈
        (gf.foldl (marcExtraStep rf) st).fields := by
  intro gf
  induction gf with
  | nil => intro st p h; simp at h
  | cons q gf ih =>
    intro st p hmem hnone
    simp only [List.foldl_cons]
    rcases List.mem_cons.mp hmem with he | ht
    · apply marcExtraFold_fields_mono
      rw [he]
      unfold marcExtraStep
      rw [if_pos (he ▸ hnone)]
      simp
    · exact ih _ p ht hnone

/-- C2 (amended): extra candidate-side tags are recorded by
`CompareMARCRecords` with score 0 and classification `extra`, but each of
them enlarges the overall-score denominator: the overall score is the sum
of the reference-side per-tag scores divided by (number of reference tags +
number of extra tags), so extra fields lower the overall score.  In
`CompareRecords` the weighted sum does range over configured selectors
only: candidate fields with unconfigured tags leave the whole result
unchanged. -/
theorem claim_C2_extra_fields :
    (∀ (rf gf : List (String × Str)) (p : String × Str), p ∈ gf →
      rf.lookup p.1 = none →
      (p.1, (⟨[], p.2, 0, "extra"⟩ : FieldMatch)) ∈
        (compareMARCRecordsCore rf gf).fields) ∧
    (∀ rf gf : List (String × Str),
      (compareMARCRecordsCore rf gf).overallScore =
        if 0 < rf.length + extraCount rf gf then
          (rf.map (refPairScore gf)).sum /
            ((rf.length + extraCount rf gf : ℕ) : ℚ)
        else 0) ∧
    (∀ (ws : List (String × ℚ)) (rf gf extra : List (String × Str)),
      (∀ p ∈ extra, ∀ q ∈ ws, p.1 ≠ q.1) →
      compareRecordsCoreW ws rf (gf ++ extra) =
        compareRecordsCoreW ws rf gf) := by
  refine ⟨?_, ?_, ?_⟩
  · intro rf gf p hmem hnone
    unfold compareMARCRecordsCore
    dsimp only
    exact marcExtraFold_mem rf gf _ p hmem hnone
  · intro rf gf
    unfold compareMARCRecordsCore
    dsimp only
    obtain ⟨e1, e2⟩ := marcExtraFold_spec rf gf
      (rf.foldl (marcRefStep gf) ⟨[], 0, 0, 0, 0, 0, 0⟩)
    obtain ⟨r1, r2⟩ := marcRefFold_spec gf rf ⟨[], 0, 0, 0, 0, 0, 0⟩
    rw [e1, e2, r1, r2]
    dsimp only
    by_cases h : 0 < rf.length + extraCount rf gf
    · rw [if_pos (by omega), if_pos h]
      push_cast
      ring_nf
    · rw [if_neg (by omega), if_neg h]
  · intro ws rf gf extra hdisj
    have hval : ∀ fw ∈ ws, valuesOf fw.1 (gf ++ extra) = valuesOf fw.1 gf := by
      intro fw hfw
      unfold valuesOf
      rw [List.filter_append]
      have : extra.filter (fun p => decide (p.1 = fw.1)) = [] := by
        rw [List.filter_eq_nil]
        intro p hp
        simpa using hdisj p hp fw hfw
      rw [this, List.append_nil]
    have hfold : ∀ (l : List (String × ℚ)) (st : CRState),
        (∀ fw ∈ l, valuesOf fw.1 (gf ++ extra) = valuesOf fw.1 gf) →
        l.foldl (crStep rf (gf ++ extra)) st = l.foldl (crStep rf gf) st := by
      intro l
      induction l with
      | nil => intro st _; rfl
      | cons fw l ihl =>
        intro st hl
        simp only [List.foldl_cons]
        have hstep : crStep rf (gf ++ extra) st fw = crStep rf gf st fw := by
          unfold crStep
          rw [hl fw (List.mem_cons_self fw l)]
        rw [hstep]
        exact ihl _ (fun q hq => hl q (List.mem_cons_of_mem fw hq))
    unfold compareRecordsCoreW
    rw [hfold ws _ hval]

/-- Witness for C2: a candidate field with unknown tag "100" is recorded as
score 0, classification `extra`. -/
theorem claim_C2_extra_fields_witness :
    ("100", (⟨[], ['y'], 0, "extra"⟩ : FieldMatch)) ∈
      (compareMARCRecordsCore [] [("100", ['y'])]).fields :=
  claim_C2_extra_fields.1 [] [("100", ['y'])] ("100", ['y'])
    (by simp) (by decide)

/-- C2 counterexample: in `CompareMARCRecords`, adding to the candidate an
extra field "100" (absent from the reference) changes the overall score of
an otherwise perfectly matching pair from 1 to 1/2 — the extra field is
recorded with score 0 and classification `extra`, but it enters the
overall-score denominator, so extra fields do change the overall score. -/
theorem claim_C2_counterexample :
    (("100", (⟨[], ['y'], 0, "extra"⟩ : FieldMatch)) ∈
      (compareMARCRecordsCore [("245", ['x'])]
        [("245", ['x']), ("100", ['y'])]).fields) ∧
    (compareMARCRecordsCore [("245", ['x'])]
      [("245", ['x']), ("100", ['y'])]).overallScore = 1/2 ∧
    (compareMARCRecordsCore [("245", ['x'])]
      [("245", ['x'])]).overallScore = 1 ∧
    ((1 : ℚ)/2 ≠ 1) := by
  have hm : ∀ gv : Str, (marcCompareTag gv gv).1.score = 1 := by
    intro gv
    unfold marcCompareTag
    dsimp only
    rw [if_pos rfl]
  have hrp1 : refPairScore [("245", ['x']), ("100", ['y'])]
      ("245", (['x'] : Str)) = 1 := by
    unfold refPairScore
    rw [show List.lookup "245" [("245", (['x'] : Str)), ("100", ['y'])] =
      some ['x'] from by decide]
    exact hm ['x']
  have hrp2 : refPairScore [("245", ['x'])] ("245", (['x'] : Str)) = 1 := by
    unfold refPairScore
    rw [show List.lookup "245" [("245", (['x'] : Str))] = some ['x'] from
      by decide]
    exact hm ['x']
  refine ⟨?_, ?_, ?_, by norm_num⟩
  · unfold compareMARCRecordsCore
    dsimp only
    exact marcExtraFold_mem _ _ _ ("100", ['y']) (by simp) (by decide)
  · unfold compareMARCRecordsCore
    dsimp only
    obtain ⟨e1, e2⟩ := marcExtraFold_spec [("245", ['x'])]
      [("245", ['x']), ("100", ['y'])]
      (List.foldl (marcRefStep [("245", ['x']), ("100", ['y'])])
        ⟨[], 0, 0, 0, 0, 0, 0⟩ [("245", ['x'])])
    obtain ⟨r1, r2⟩ := marcRefFold_spec [("245", ['x']), ("100", ['y'])]
      [("245", ['x'])] ⟨[], 0, 0, 0, 0, 0, 0⟩
    rw [e1, e2, r1, r2]
    dsimp only
    rw [show extraCount [("245", (['x'] : Str))]
      [("245", (['x'] : Str)), ("100", ['y'])] = 1 from by decide]
    simp only [List.map_cons, List.map_nil, List.sum_cons, List.sum_nil,
      hrp1]
    norm_num
  · unfold compareMARCRecordsCore
    dsimp only
    obtain ⟨e1, e2⟩ := marcExtraFold_spec [("245", ['x'])] [("245", ['x'])]
      (List.foldl (marcRefStep [("245", ['x'])]) ⟨[], 0, 0, 0, 0, 0, 0⟩
        [("245", ['x'])])
    obtain ⟨r1, r2⟩ := marcRefFold_spec [("245", ['x'])] [("245", ['x'])]
      ⟨[], 0, 0, 0, 0, 0, 0⟩
    rw [e1, e2, r1, r2]
    dsimp only
    rw [show extraCount [("245", (['x'] : Str))] [("245", (['x'] : Str))] =
      0 from by decide]
    simp only [List.map_cons, List.map_nil, List.sum_cons, List.sum_nil,
      hrp2]
    norm_num

theorem aggregateFieldStats_scores (stats : FieldStats) (m : FieldMatch) :
    (aggregateFieldStats stats m).scores = stats.scores ++ [m.score] := rfl

theorem aggregateFieldStats_averageScore (stats : FieldStats)
    (m : FieldMatch) :
    (aggregateFieldStats stats m).averageScore = stats.averageScore := rfl

theorem aggStep_fail (st : AggState) (r : EvaluationResult)
    (he : r.error ≠ "") :
    aggStep st r = { st with
      totalDuration := st.totalDuration + r.processingTime
      failureCount := st.failureCount + 1 } := by
  unfold aggStep
  dsimp only
  rw [if_pos he]

theorem aggStep_success_none (st : AggState) (r : EvaluationResult)
    (he : r.error = "") (hc : r.comparison = none) :
    aggStep st r = { st with
      totalDuration := st.totalDuration + r.processingTime
      successCount := st.successCount + 1
      successDuration := st.successDuration + r.processingTime } := by
  unfold aggStep
  dsimp only
  rw [if_neg (by simp [he]), hc]

theorem aggStep_success_some (st : AggState) (r : EvaluationResult)
    (c : MARCComparison) (he : r.error = "") (hc : r.comparison = some c) :
    aggStep st r = { st with
      totalDuration := st.totalDuration + r.processingTime
      successCount := st.successCount + 1
      successDuration := st.successDuration + r.processingTime
      titleStats := aggregateFieldStats st.titleStats c.titleMatch
      authorStats := aggregateFieldStats st.authorStats c.authorMatch
      dateStats := aggregateFieldStats st.dateStats c.dateMatch
      isbnStats := aggregateFieldStats st.isbnStats c.isbnMatch
      subjectStats := aggregateFieldStats st.subjectStats c.subjectMatch
      totalOverallScore := st.totalOverallScore + c.overallScore } := by
  unfold aggStep
  dsimp only
  rw [if_neg (by simp [he]), hc]

theorem fieldScoresOf_cons (sel : MARCComparison → FieldMatch)
    (r : EvaluationResult) (rs : List EvaluationResult) :
    fieldScoresOf sel (r :: rs) =
      (if r.error = "" then
        (r.comparison.map (fun c => (sel c).score)).toList else []) ++
      fieldScoresOf sel rs := by
  unfold fieldScoresOf
  rw [List.filterMap_cons]
  split_ifs with he
  · cases hc : r.comparison <;> simp [hc]
  · simp

theorem overallScoresOf_cons (r : EvaluationResult)
    (rs : List EvaluationResult) :
    overallScoresOf (r :: rs) =
      (if r.error = "" then
        (r.comparison.map (fun c => c.overallScore)).toList else []) ++
      overallScoresOf rs := by
  unfold overallScoresOf
  rw [List.filterMap_cons]
  split_ifs with he
  · cases hc : r.comparison <;> simp [hc]
  · simp

theorem aggFold_spec :
    ∀ (rs : List EvaluationResult) (st : AggState),
      ((rs.foldl aggStep st).successCount =
        st.successCount + rs.countP (fun r => r.error == "")) ∧
      ((rs.foldl aggStep st).failureCount =
        st.failureCount + rs.countP (fun r => r.error != "")) ∧
      ((rs.foldl aggStep st).titleStats.scores =
        st.titleStats.scores ++ fieldScoresOf (fun c => c.titleMatch) rs) ∧
      ((rs.foldl aggStep st).authorStats.scores =
        st.authorStats.scores ++ fieldScoresOf (fun c => c.authorMatch) rs) ∧
      ((rs.foldl aggStep st).dateStats.scores =
        st.dateStats.scores ++ fieldScoresOf (fun c => c.dateMatch) rs) ∧
      ((rs.foldl aggStep st).isbnStats.scores =
        st.isbnStats.scores ++ fieldScoresOf (fun c => c.isbnMatch) rs) ∧
      ((rs.foldl aggStep st).subjectStats.scores =
        st.subjectStats.scores ++
          fieldScoresOf (fun c => c.subjectMatch) rs) ∧
      ((rs.foldl aggStep st).totalOverallScore =
        st.totalOverallScore + (overallScoresOf rs).sum) ∧
      ((rs.foldl aggStep st).titleStats.averageScore =
        st.titleStats.averageScore) ∧
      ((rs.foldl aggStep st).authorStats.averageScore =
        st.authorStats.averageScore) ∧
      ((rs.foldl aggStep st).dateStats.averageScore =
        st.dateStats.averageScore) ∧
      ((rs.foldl aggStep st).isbnStats.averageScore =
        st.isbnStats.averageScore) ∧
      ((rs.foldl aggStep st).subjectStats.averageScore =
        st.subjectStats.averageScore) := by
  intro rs
  induction rs with
  | nil =>
    intro st
    simp [fieldScoresOf, overallScoresOf]
  | cons r rs ih =>
    intro st
    simp only [List.foldl_cons, List.countP_cons, fieldScoresOf_cons,
      overallScoresOf_cons]
    by_cases he : r.error = ""
    · cases hc : r.comparison with
      | none =>
        rw [aggStep_success_none st r he hc]
        obtain ⟨i1, i2, i3, i4, i5, i6, i7, i8, i9, i10, i11, i12, i13⟩ :=
          ih { st with
            totalDuration := st.totalDuration + r.processingTime
            successCount := st.successCount + 1
            successDuration := st.successDuration + r.processingTime }
        rw [i1, i2, i3, i4, i5, i6, i7, i8, i9, i10, i11, i12, i13]
        simp [he, hc]
        omega
      | some c =>
        rw [aggStep_success_some st r c he hc]
        obtain ⟨i1, i2, i3, i4, i5, i6, i7, i8, i9, i10, i11, i12, i13⟩ :=
          ih { st with
            totalDuration := st.totalDuration + r.processingTime
            successCount := st.successCount + 1
            successDuration := st.successDuration + r.processingTime
            titleStats := aggregateFieldStats st.titleStats c.titleMatch
            authorStats := aggregateFieldStats st.authorStats c.authorMatch
            dateStats := aggregateFieldStats st.dateStats c.dateMatch
            isbnStats := aggregateFieldStats st.isbnStats c.isbnMatch
            subjectStats := aggregateFieldStats st.subjectStats c.subjectMatch
            totalOverallScore := st.totalOverallScore + c.overallScore }
        rw [i1, i2, i3, i4, i5, i6, i7, i8, i9, i10, i11, i12, i13]
        simp only [aggregateFieldStats_scores, aggregateFieldStats_averageScore]
        simp [he, hc]
        refine ⟨by omega, by ring⟩
    · rw [aggStep_fail st r he]
      obtain ⟨i1, i2, i3, i4, i5, i6, i7, i8, i9, i10, i11, i12, i13⟩ :=
        ih { st with
          totalDuration := st.totalDuration + r.processingTime
          failureCount := st.failureCount + 1 }
      rw [i1, i2, i3, i4, i5, i6, i7, i8, i9, i10, i11, i12, i13]
      simp [he]
      omega

theorem finishStats_scores (s : FieldStats) :
    (finishStats s).scores = s.scores := rfl

theorem countP_err_total (rs : List EvaluationResult) :
    rs.countP (fun r => r.error == "") +
      rs.countP (fun r => r.error != "") = rs.length := by
  induction rs with
  | nil => rfl
  | cons r rs ih =>
    simp only [List.countP_cons, List.length_cons]
    by_cases he : r.error = "" <;> simp [he] <;> omega

theorem agg_totalRecords_spec (rs : List EvaluationResult)
    (provider model : String) (now : Nat) :
    (AggregateEvaluationResults rs provider model now).totalRecords =
      rs.length := rfl

theorem agg_successCount_spec (rs : List EvaluationResult)
    (provider model : String) (now : Nat) :
    (AggregateEvaluationResults rs provider model now).successCount =
      rs.countP (fun r => r.error == "") := by
  obtain ⟨a1, -⟩ := aggFold_spec rs initAggState
  unfold AggregateEvaluationResults
  dsimp only
  rw [a1]
  simp [initAggState]

theorem agg_failureCount_spec (rs : List EvaluationResult)
    (provider model : String) (now : Nat) :
    (AggregateEvaluationResults rs provider model now).failureCount =
      rs.countP (fun r => r.error != "") := by
  obtain ⟨-, a2, -⟩ := aggFold_spec rs initAggState
  unfold AggregateEvaluationResults
  dsimp only
  rw [a2]
  simp [initAggState]

theorem agg_titleScores_spec (rs : List EvaluationResult)
    (provider model : String) (now : Nat) :
    (AggregateEvaluationResults rs provider model now).titleAccuracy.scores =
      fieldScoresOf (fun c => c.titleMatch) rs := by
  obtain ⟨-, -, a3, -⟩ := aggFold_spec rs initAggState
  unfold AggregateEvaluationResults
  dsimp only
  rw [apply_ite FieldStats.scores, finishStats_scores, ite_self, a3]
  simp [initAggState, initFieldStats]

theorem agg_authorScores_spec (rs : List EvaluationResult)
    (provider model : String) (now : Nat) :
    (AggregateEvaluationResults rs provider model now).authorAccuracy.scores =
      fieldScoresOf (fun c => c.authorMatch) rs := by
  obtain ⟨-, -, -, a4, -⟩ := aggFold_spec rs initAggState
  unfold AggregateEvaluationResults
  dsimp only
  rw [apply_ite FieldStats.scores, finishStats_scores, ite_self, a4]
  simp [initAggState, initFieldStats]

theorem agg_dateScores_spec (rs : List EvaluationResult)
    (provider model : String) (now : Nat) :
    (AggregateEvaluationResults rs provider model now).dateAccuracy.scores =
      fieldScoresOf (fun c => c.dateMatch) rs := by
  obtain ⟨-, -, -, -, a5, -⟩ := aggFold_spec rs initAggState
  unfold AggregateEvaluationResults
  dsimp only
  rw [apply_ite FieldStats.scores, finishStats_scores, ite_self, a5]
  simp [initAggState, initFieldStats]

theorem agg_isbnScores_spec (rs : List EvaluationResult)
    (provider model : String) (now : Nat) :
    (AggregateEvaluationResults rs provider model now).isbnAccuracy.scores =
      fieldScoresOf (fun c => c.isbnMatch) rs := by
  obtain ⟨-, -, -, -, -, a6, -⟩ := aggFold_spec rs initAggState
  unfold AggregateEvaluationResults
  dsimp only
  rw [apply_ite FieldStats.scores, finishStats_scores, ite_self, a6]
  simp [initAggState, initFieldStats]

theorem agg_subjectScores_spec (rs : List EvaluationResult)
    (provider model : String) (now : Nat) :
    (AggregateEvaluationResults rs provider model
      now).subjectAccuracy.scores =
      fieldScoresOf (fun c => c.subjectMatch) rs := by
  obtain ⟨-, -, -, -, -, -, a7, -⟩ := aggFold_spec rs initAggState
  unfold AggregateEvaluationResults
  dsimp only
  rw [apply_ite FieldStats.scores, finishStats_scores, ite_self, a7]
  simp [initAggState, initFieldStats]

theorem agg_overallAccuracy_spec (rs : List EvaluationResult)
    (provider model : String) (now : Nat) :
    (AggregateEvaluationResults rs provider model now).overallAccuracy =
      if 0 < rs.countP (fun r => r.error == "") then
        (overallScoresOf rs).sum /
          ((rs.countP (fun r => r.error == "") : ℕ) : ℚ)
      else 0 := by
  obtain ⟨a1, -, -, -, -, -, -, a8, -⟩ := aggFold_spec rs initAggState
  unfold AggregateEvaluationResults
  dsimp only
  rw [a1, a8]
  simp [initAggState]

theorem agg_zero_success (rs : List EvaluationResult)
    (provider model : String) (now : Nat)
    (h : rs.countP (fun r => r.error == "") = 0) :
    (AggregateEvaluationResults rs provider model
      now).titleAccuracy.averageScore = 0 ∧
    (AggregateEvaluationResults rs provider model
      now).authorAccuracy.averageScore = 0 ∧
    (AggregateEvaluationResults rs provider model
      now).dateAccuracy.averageScore = 0 ∧
    (AggregateEvaluationResults rs provider model
      now).isbnAccuracy.averageScore = 0 ∧
    (AggregateEvaluationResults rs provider model
      now).subjectAccuracy.averageScore = 0 ∧
    (AggregateEvaluationResults rs provider model now).overallAccuracy = 0 ∧
    (AggregateEvaluationResults rs provider model
      now).averageProcessingTime = 0 := by
  obtain ⟨a1, -, -, -, -, -, -, -, a9, a10, a11, a12, a13⟩ :=
    aggFold_spec rs initAggState
  have hz : (rs.foldl aggStep initAggState).successCount = 0 := by
    rw [a1]
    simpa [initAggState] using h
  unfold AggregateEvaluationResults
  dsimp only
  rw [if_neg (by omega), if_neg (by omega), if_neg (by omega),
    if_neg (by omega), if_neg (by omega), if_neg (by omega),
    if_neg (by omega)]
  rw [a9, a10, a11, a12, a13]
  simp [initAggState, initFieldStats]

theorem fillZero_error (r : EvaluationResult) :
    (fillZeroComparison r).error = r.error := by
  unfold fillZeroComparison
  split_ifs <;> rfl

theorem countP_fillZero (rs : List EvaluationResult) :
    (rs.map fillZeroComparison).countP (fun r => r.error == "") =
      rs.countP (fun r => r.error == "") := by
  induction rs with
  | nil => rfl
  | cons r rs ih =>
    simp only [List.map_cons, List.countP_cons, fillZero_error, ih]

theorem overallScoresOf_fillZero_sum (rs : List EvaluationResult) :
    (overallScoresOf (rs.map fillZeroComparison)).sum =
      (overallScoresOf rs).sum := by
  induction rs with
  | nil => rfl
  | cons r rs ih =>
    simp only [List.map_cons, overallScoresOf_cons, fillZero_error]
    by_cases he : r.error = ""
    · cases hc : r.comparison with
      | none =>
        have hf : (fillZeroComparison r).comparison = some zeroComparison := by
          unfold fillZeroComparison
          rw [if_pos ⟨he, hc⟩]
        simp [he, hc, hf, ih, zeroComparison]
      | some c =>
        have hf : (fillZeroComparison r).comparison = r.comparison := by
          unfold fillZeroComparison
          rw [if_neg (by simp [hc])]
        simp [he, hc, hf, ih]
    · simp [he, ih]

/-- C7: aggregation sets `TotalRecords` to the sequence length, counts each
result with a non-empty error as a failure and every other result as a
success (so the two counts sum to the total), takes every score entering
any per-field score list only from successful results carrying a
comparison, and with zero successes leaves every average (per-field
averages, overall accuracy, average processing time) at a defined zero. -/
theorem claim_C7_aggregation (rs : List EvaluationResult)
    (provider model : String) (now : Nat) :
    (AggregateEvaluationResults rs provider model now).totalRecords =
      rs.length ∧
    (AggregateEvaluationResults rs provider model now).failureCount =
      rs.countP (fun r => r.error != "") ∧
    (AggregateEvaluationResults rs provider model now).successCount =
      rs.countP (fun r => r.error == "") ∧
    (AggregateEvaluationResults rs provider model now).successCount +
      (AggregateEvaluationResults rs provider model now).failureCount =
      (AggregateEvaluationResults rs provider model now).totalRecords ∧
    (AggregateEvaluationResults rs provider model now).titleAccuracy.scores =
      fieldScoresOf (fun c => c.titleMatch) rs ∧
    (AggregateEvaluationResults rs provider model
      now).authorAccuracy.scores =
      fieldScoresOf (fun c => c.authorMatch) rs ∧
    (AggregateEvaluationResults rs provider model now).dateAccuracy.scores =
      fieldScoresOf (fun c => c.dateMatch) rs ∧
    (AggregateEvaluationResults rs provider model now).isbnAccuracy.scores =
      fieldScoresOf (fun c => c.isbnMatch) rs ∧
    (AggregateEvaluationResults rs provider model
      now).subjectAccuracy.scores =
      fieldScoresOf (fun c => c.subjectMatch) rs ∧
    ((AggregateEvaluationResults rs provider model now).successCount = 0 →
      (AggregateEvaluationResults rs provider model
        now).titleAccuracy.averageScore = 0 ∧
      (AggregateEvaluationResults rs provider model
        now).authorAccuracy.averageScore = 0 ∧
      (AggregateEvaluationResults rs provider model
        now).dateAccuracy.averageScore = 0 ∧
      (AggregateEvaluationResults rs provider model
        now).isbnAccuracy.averageScore = 0 ∧
      (AggregateEvaluationResults rs provider model
        now).subjectAccuracy.averageScore = 0 ∧
      (AggregateEvaluationResults rs provider model now).overallAccuracy =
        0 ∧
      (AggregateEvaluationResults rs provider model
        now).averageProcessingTime = 0) := by
  refine ⟨agg_totalRecords_spec rs provider model now,
    agg_failureCount_spec rs provider model now,
    agg_successCount_spec rs provider model now, ?_,
    agg_titleScores_spec rs provider model now,
    agg_authorScores_spec rs provider model now,
    agg_dateScores_spec rs provider model now,
    agg_isbnScores_spec rs provider model now,
    agg_subjectScores_spec rs provider model now, ?_⟩
  · rw [agg_totalRecords_spec, agg_failureCount_spec, agg_successCount_spec]
    exact countP_err_total rs
  · intro h0
    rw [agg_successCount_spec] at h0
    exact agg_zero_success rs provider model now h0

/-- Witness for C7 over three records of which one fails outright:
total 3, success 2, failure 1. -/
theorem claim_C7_aggregation_witness :
    (AggregateEvaluationResults
      [⟨"b1", "t1", "a1", "", none, 5, "request failed"⟩,
       ⟨"b2", "t2", "a2", "", some zeroComparison, 3, ""⟩,
       ⟨"b3", "t3", "a3", "", none, 2, ""⟩] "prov" "model" 0).successCount +
    (AggregateEvaluationResults
      [⟨"b1", "t1", "a1", "", none, 5, "request failed"⟩,
       ⟨"b2", "t2", "a2", "", some zeroComparison, 3, ""⟩,
       ⟨"b3", "t3", "a3", "", none, 2, ""⟩] "prov" "model" 0).failureCount =
    (AggregateEvaluationResults
      [⟨"b1", "t1", "a1", "", none, 5, "request failed"⟩,
       ⟨"b2", "t2", "a2", "", some zeroComparison, 3, ""⟩,
       ⟨"b3", "t3", "a3", "", none, 2, ""⟩] "prov" "model" 0).totalRecords :=
  (claim_C7_aggregation
    [⟨"b1", "t1", "a1", "", none, 5, "request failed"⟩,
     ⟨"b2", "t2", "a2", "", some zeroComparison, 3, ""⟩,
     ⟨"b3", "t3", "a3", "", none, 2, ""⟩] "prov" "model" 0).2.2.2.1

/-- C9: aggregation is deterministic across two runs — called twice on the
same result sequence (same order, same provider and model strings) with
different wall-clock readings, every statistic field (counts, per-field
statistics including score lists and averages, overall accuracy, timing
totals, sample size) is identical; only the stored evaluation date can
differ. -/
theorem claim_C9_determinism (rs : List EvaluationResult)
    (provider model : String) (t1 t2 : Nat) :
    (AggregateEvaluationResults rs provider model t1).totalRecords =
      (AggregateEvaluationResults rs provider model t2).totalRecords ∧
    (AggregateEvaluationResults rs provider model t1).successCount =
      (AggregateEvaluationResults rs provider model t2).successCount ∧
    (AggregateEvaluationResults rs provider model t1).failureCount =
      (AggregateEvaluationResults rs provider model t2).failureCount ∧
    (AggregateEvaluationResults rs provider model t1).titleAccuracy =
      (AggregateEvaluationResults rs provider model t2).titleAccuracy ∧
    (AggregateEvaluationResults rs provider model t1).authorAccuracy =
      (AggregateEvaluationResults rs provider model t2).authorAccuracy ∧
    (AggregateEvaluationResults rs provider model t1).dateAccuracy =
      (AggregateEvaluationResults rs provider model t2).dateAccuracy ∧
    (AggregateEvaluationResults rs provider model t1).isbnAccuracy =
      (AggregateEvaluationResults rs provider model t2).isbnAccuracy ∧
    (AggregateEvaluationResults rs provider model t1).subjectAccuracy =
      (AggregateEvaluationResults rs provider model t2).subjectAccuracy ∧
    (AggregateEvaluationResults rs provider model t1).overallAccuracy =
      (AggregateEvaluationResults rs provider model t2).overallAccuracy ∧
    (AggregateEvaluationResults rs provider model
      t1).averageProcessingTime =
      (AggregateEvaluationResults rs provider model
        t2).averageProcessingTime ∧
    (AggregateEvaluationResults rs provider model t1).totalProcessingTime =
      (AggregateEvaluationResults rs provider model t2).totalProcessingTime ∧
    (AggregateEvaluationResults rs provider model t1).results =
      (AggregateEvaluationResults rs provider model t2).results ∧
    (AggregateEvaluationResults rs provider model t1).sampleSize =
      (AggregateEvaluationResults rs provider model t2).sampleSize :=
  ⟨rfl, rfl, rfl, rfl, rfl, rfl, rfl, rfl, rfl, rfl, rfl, rfl, rfl⟩

/-- C10 (implicit): a result with an empty error but a nil comparison is
counted as a success, contributes no entry to any per-field score list and
nothing to the overall-score numerator, while the overall accuracy still
divides by the full success count — so such a record lowers the reported
accuracy exactly as if it had scored 0 (replacing each such nil comparison
by an explicit zero-scored comparison changes neither the success count
nor the overall accuracy). -/
theorem claim_C10_nil_comparison (rs : List EvaluationResult)
    (provider model : String) (now : Nat) :
    (AggregateEvaluationResults rs provider model now).successCount =
      rs.countP (fun r => r.error == "") ∧
    (AggregateEvaluationResults rs provider model now).titleAccuracy.scores =
      fieldScoresOf (fun c => c.titleMatch) rs ∧
    (AggregateEvaluationResults rs provider model now).overallAccuracy =
      (if 0 < rs.countP (fun r => r.error == "") then
        (overallScoresOf rs).sum /
          ((rs.countP (fun r => r.error == "") : ℕ) : ℚ)
      else 0) ∧
    (AggregateEvaluationResults (rs.map fillZeroComparison) provider model
      now).successCount =
      (AggregateEvaluationResults rs provider model now).successCount ∧
    (AggregateEvaluationResults (rs.map fillZeroComparison) provider model
      now).overallAccuracy =
      (AggregateEvaluationResults rs provider model now).overallAccuracy := by
  refine ⟨agg_successCount_spec rs provider model now,
    agg_titleScores_spec rs provider model now,
    agg_overallAccuracy_spec rs provider model now, ?_, ?_⟩
  · rw [agg_successCount_spec, agg_successCount_spec, countP_fillZero]
  · rw [agg_overallAccuracy_spec, agg_overallAccuracy_spec, countP_fillZero,
      overallScoresOf_fillZero_sum]

end Cataloger